import Mathlib

/-!
Verification of `bin/lib/import_python_misc.py` and
`cli_programs/tzar/tzar/archive/p7zip_item.py` (wijjo/scripts).

Part 1 embeds the library-path resolver `add_python_misc_to_sys_path`:
POSIX `os.path.dirname` / `os.path.join` are modelled on `String`, the
filesystem is the list of paths for which `os.path.exists` is true, and the
unbounded `while True` loop is run on a fuel bound proved sufficient.

Part 2 embeds the 7-Zip archive item: a batch is the list of builder calls
performed on it, and `console.abort` (process termination) is the `error`
case of `Except`.
-/

/-- The `head` computed by POSIX `os.path.dirname`: everything up to and
including the last separator (empty when there is none). -/
def dirnameHead (p : String) : List Char :=
  (p.data.reverse.dropWhile (fun c => c != '/')).reverse

/-- POSIX `os.path.dirname`: keep everything up to and including the last
separator, then (unless the kept head is empty or all separators) strip the
trailing separators. -/
def posixDirname (p : String) : String :=
  if (dirnameHead p).all (fun c => c == '/') then String.mk (dirnameHead p)
  else String.mk (((dirnameHead p).reverse.dropWhile (fun c => c == '/')).reverse)

/-- POSIX `os.path.join` for two components: an absolute second component
replaces the first; otherwise the parts are glued with `/` unless the first
part is empty or already ends in `/`. -/
def posixJoin (a b : String) : String :=
  if b.data.head? = some '/' then b
  else if a.data = [] ∨ a.data.getLast? = some '/' then a ++ b
  else a ++ "/" ++ b

/-- `BASE_SUB_DIRS = ('lib', os.path.join('ext', 'python_misc'))`: where to
look for `python_misc/__init__.py` under parent directories. -/
def BASE_SUB_DIRS : List String := ["lib", posixJoin "ext" "python_misc"]

/-- `os.path.exists`, over the filesystem modelled as the list of paths that
exist. -/
def pathExists (fs : List String) (p : String) : Bool := decide (p ∈ fs)

/-- The marker path `os.path.join(base_lib_dir, 'python_misc', '__init__.py')`
checked for the candidate `base_lib_dir = os.path.join(base_dir, sub)`. -/
def markerExists (fs : List String) (base_dir sub : String) : Bool :=
  pathExists fs
    (posixJoin (posixJoin (posixJoin base_dir sub) "python_misc") "__init__.py")

/-- `if base_lib_dir not in sys.path: sys.path.insert(0, base_lib_dir)`. -/
def guardedInsert (sys_path : List String) (dir : String) : List String :=
  if dir ∈ sys_path then sys_path else dir :: sys_path

/-- The `while True` loop of `add_python_misc_to_sys_path`, run on fuel.
`none` means the fuel ran out before the loop reached one of its `return`
statements; `some sys_path` is the search-path list on return.  Each
iteration tries the candidates of `BASE_SUB_DIRS` in order at `base_dir`,
inserting the first hit; otherwise `base_dir` moves to its parent, and the
loop returns when the new `base_dir` is empty or equals `last_base_dir`. -/
def walkLoop (fs sys_path : List String) :
    Nat → String → Option String → Option (List String)
  | 0, _, _ => none
  | fuel + 1, base_dir, last_base_dir =>
    match BASE_SUB_DIRS.find? (fun sub => markerExists fs base_dir sub) with
    | some sub => some (guardedInsert sys_path (posixJoin base_dir sub))
    | none =>
      let next := posixDirname base_dir
      if next = "" ∨ some next = last_base_dir then some sys_path
      else walkLoop fs sys_path fuel next (some next)

/-- `base_dir = os.path.dirname(os.path.dirname(__file__))`: the starting
directory of the walk, two `dirname` applications above the bootstrap file. -/
def initial_base_dir (file : String) : String :=
  posixDirname (posixDirname file)

/-- Fuel bound for the walk; proved sufficient in `walkLoop_total`. -/
def walkFuel (file : String) : Nat := (initial_base_dir file).length + 2

/-- `add_python_misc_to_sys_path`, as a function from the filesystem, the
current `sys.path` and the bootstrap file's path to the resulting `sys.path`
(`none` would mean fuel exhaustion, which never happens). -/
def add_python_misc_to_sys_path (fs sys_path : List String) (file : String) :
    Option (List String) :=
  walkLoop fs sys_path (walkFuel file) (initial_base_dir file) none

/-- The sequence of `base_dir` values the loop inspects when no candidate
ever matches: the starting directory followed by its ancestors, up to the
loop's own root/cycle guard. -/
def visitedBases : Nat → String → Option String → List String
  | 0, _, _ => []
  | fuel + 1, base_dir, last_base_dir =>
    base_dir ::
      (let next := posixDirname base_dir
       if next = "" ∨ some next = last_base_dir then []
       else visitedBases fuel next (some next))

/-- The ancestors the resolver's walk covers for a given bootstrap file. -/
def walkAncestors (file : String) : List String :=
  visitedBases (walkFuel file) (initial_base_dir file) none

/-- The directory the resolver should insert: scanning the visited bases from
nearest to farthest, at each base scanning `BASE_SUB_DIRS` in priority order,
the first candidate whose marker file exists. -/
def firstHit (fs : List String) (bases : List String) : Option String :=
  bases.findSome? fun b =>
    (BASE_SUB_DIRS.find? (fun sub => markerExists fs b sub)).map
      (fun sub => posixJoin b sub)

/-- An argument passed to the batch builder: `add_args` receives both plain
strings and `(archive, extension)` pairs. -/
inductive BatchArg where
  | str : String → BatchArg
  | pair : String → String → BatchArg
deriving DecidableEq

/-- One builder call performed on a command batch. -/
inductive BatchCall where
  | add_command : List String → BatchCall
  | add_exclude_args : List String → BatchCall
  | add_args : List BatchArg → BatchCall
  | add_source_deletion : BatchCall
deriving DecidableEq

/-- A command batch, recorded as the sequence of builder calls made on it
(the batch builder itself is an unseen collaborator; only the calls the
archive item performs are observable here). -/
def Batch : Type := List BatchCall

/-- `batch.add_command(*args)`. -/
def Batch.add_command (b : Batch) (args : List String) : Batch :=
  List.append b [BatchCall.add_command args]

/-- `batch.add_exclude_args(*args)`. -/
def Batch.add_exclude_args (b : Batch) (args : List String) : Batch :=
  List.append b [BatchCall.add_exclude_args args]

/-- `batch.add_args(*args)`. -/
def Batch.add_args (b : Batch) (args : List BatchArg) : Batch :=
  List.append b [BatchCall.add_args args]

/-- `batch.add_source_deletion()`. -/
def Batch.add_source_deletion (b : Batch) : Batch :=
  List.append b [BatchCall.add_source_deletion]

/-- `console.abort(message)` terminates the process with the message; in
this embedding an operation that aborts yields `Except.error message` and
produces no result value. -/
def console.abort {α : Type} (message : String) : Except String α :=
  Except.error message

/-- The attributes of a `P7ZipItem` read by `p7zip_item.py`.  The class
stores `path` and `config_data` through the unseen `BaseItem.__init__`; the
`archive` attribute is provided by the unseen base class and kept abstract
as a field.  `Config` is the opaque type of `config_data`. -/
structure P7ZipItem (Config : Type) where
  path : String
  config_data : Config
  archive : String

/-- `P7ZipItem.item_for_path_if_matching`: create an archive item if the
parsed name has the appropriate extension.  `extension` is the only field of
the parsed name the method reads; `base_init` stands for the constructor
chain `P7ZipItem.__init__` → unseen `BaseItem.__init__`.  A Python method
falling off the end returns `None`, hence the `Option`. -/
def P7ZipItem.item_for_path_if_matching {Config : Type}
    (base_init : String → Config → P7ZipItem Config)
    (path : String) (extension : String) (config_data : Config) :
    Option (P7ZipItem Config) :=
  if extension = "7z" then some (base_init path config_data) else none

/-- `P7ZipItem.build_create_batch`: populate a command batch for creating
the archive. -/
def P7ZipItem.build_create_batch {Config : Type} (self : P7ZipItem Config)
    (batch : Batch) : Except String Batch :=
  Except.ok
    ((((batch.add_command ["7za", "a"]).add_exclude_args
        ["-xr!"]).add_args
        [BatchArg.pair self.archive ".7z", BatchArg.str self.path]).add_source_deletion)

/-- `P7ZipItem.build_restore_batch`: aborts, restore is unimplemented. -/
def P7ZipItem.build_restore_batch {Config : Type} (_self : P7ZipItem Config)
    (_batch : Batch) : Except String Batch :=
  console.abort "Restore is not yet implemented for p7zip compression."

/-- `P7ZipItem.build_compare_batch`: aborts, compare is unimplemented. -/
def P7ZipItem.build_compare_batch {Config : Type} (_self : P7ZipItem Config)
    (_batch : Batch) : Except String Batch :=
  console.abort "Compare is not yet implemented for p7zip compression."

/-! Helper lemmas about `dropWhile`, `posixDirname` and `walkLoop`. -/

theorem length_dropWhile_le (q : Char → Bool) :
    ∀ l : List Char, (l.dropWhile q).length ≤ l.length := by
  intro l
  induction l with
  | nil => simp
  | cons a l ih =>
    rw [List.dropWhile_cons]
    by_cases ha : q a = true
    · simp only [ha, if_true]
      exact Nat.le_succ_of_le ih
    · simp [ha]

theorem dropWhile_of_length_eq (q : Char → Bool) :
    ∀ l : List Char, (l.dropWhile q).length = l.length → l.dropWhile q = l := by
  intro l
  induction l with
  | nil => simp
  | cons a l ih =>
    intro h
    rw [List.dropWhile_cons] at h ⊢
    by_cases ha : q a = true
    · rw [if_pos ha] at h
      rw [List.length_cons] at h
      have := length_dropWhile_le q l
      omega
    · rw [if_neg ha]

theorem dropWhile_head_false (q : Char → Bool) :
    ∀ (l : List Char) (c : Char) (t : List Char),
      l.dropWhile q = c :: t → q c = false := by
  intro l
  induction l with
  | nil => intro c t h; simp at h
  | cons a l ih =>
    intro c t h
    rw [List.dropWhile_cons] at h
    by_cases ha : q a = true
    · rw [if_pos ha] at h
      exact ih c t h
    · rw [if_neg ha] at h
      cases h
      simpa using ha

theorem posixDirname_shrink (p : String) :
    posixDirname p = p ∨ (posixDirname p).length < p.length := by
  have hlenp : p.data.reverse.length = p.length := by
    rw [List.length_reverse]
    rfl
  have hle : (dirnameHead p).length ≤ p.length := by
    have h := length_dropWhile_le (fun c => c != '/') p.data.reverse
    simpa [dirnameHead, hlenp] using h
  by_cases hall : (dirnameHead p).all (fun c => c == '/') = true
  · rw [posixDirname, if_pos hall]
    rcases Nat.lt_or_ge (dirnameHead p).length p.length with hlt | hge
    · right
      exact hlt
    · left
      have heq : (p.data.reverse.dropWhile (fun c => c != '/')).length
          = p.data.reverse.length := by
        have h1 : (dirnameHead p).length
            = (p.data.reverse.dropWhile (fun c => c != '/')).length := by
          simp [dirnameHead]
        omega
      have hdw := dropWhile_of_length_eq (fun c => c != '/') p.data.reverse heq
      have : dirnameHead p = p.data := by
        simp [dirnameHead, hdw]
      rw [this]
  · rw [posixDirname, if_neg hall]
    right
    have hrev : (dirnameHead p).reverse
        = p.data.reverse.dropWhile (fun c => c != '/') := by
      simp [dirnameHead]
    cases hrd : p.data.reverse.dropWhile (fun c => c != '/') with
    | nil =>
      exact absurd (by simp [dirnameHead, hrd]) hall
    | cons c t =>
      have hc : (c != '/') = false :=
        dropWhile_head_false (fun x => x != '/') p.data.reverse c t hrd
      have hc' : (c == '/') = true := by
        simpa using hc
      have hstep : (dirnameHead p).reverse.dropWhile (fun c => c == '/')
          = t.dropWhile (fun c => c == '/') := by
        rw [hrev, hrd, List.dropWhile_cons, if_pos hc']
      have h1 : (t.dropWhile (fun c => c == '/')).length ≤ t.length :=
        length_dropWhile_le _ _
      have h2 : (c :: t).length ≤ p.length := by
        rw [← hrd]
        have h := length_dropWhile_le (fun c => c != '/') p.data.reverse
        omega
      have hlenmk : ∀ l : List Char, (String.mk l).length = l.length :=
        fun _ => rfl
      rw [hlenmk, hstep, List.length_reverse]
      rw [List.length_cons] at h2
      omega

theorem walkLoop_zero (fs sp : List String) (base : String)
    (last : Option String) : walkLoop fs sp 0 base last = none := rfl

theorem walkLoop_succ (fs sp : List String) (fuel : Nat) (base : String)
    (last : Option String) :
    walkLoop fs sp (fuel + 1) base last =
      match BASE_SUB_DIRS.find? (fun sub => markerExists fs base sub) with
      | some sub => some (guardedInsert sp (posixJoin base sub))
      | none =>
        if posixDirname base = "" ∨ some (posixDirname base) = last then some sp
        else walkLoop fs sp fuel (posixDirname base)
          (some (posixDirname base)) := rfl

theorem visitedBases_zero (base : String) (last : Option String) :
    visitedBases 0 base last = [] := rfl

theorem visitedBases_succ (fuel : Nat) (base : String) (last : Option String) :
    visitedBases (fuel + 1) base last =
      base ::
        (if posixDirname base = "" ∨ some (posixDirname base) = last then []
         else visitedBases fuel (posixDirname base)
           (some (posixDirname base))) := rfl

theorem guardedInsert_mem (sp : List String) (d : String) :
    d ∈ guardedInsert sp d := by
  unfold guardedInsert
  by_cases h : d ∈ sp
  · simp [h]
  · simp [h]

theorem guardedInsert_of_mem (sp : List String) (d : String) (h : d ∈ sp) :
    guardedInsert sp d = sp := by
  simp [guardedInsert, h]

theorem guardedInsert_idem (sp : List String) (d : String) :
    guardedInsert (guardedInsert sp d) d = guardedInsert sp d :=
  guardedInsert_of_mem _ _ (guardedInsert_mem sp d)

theorem walkLoop_of_firstHit (fs sp : List String) :
    ∀ (fuel : Nat) (base : String) (last : Option String) (lib : String),
      firstHit fs (visitedBases fuel base last) = some lib →
      walkLoop fs sp fuel base last = some (guardedInsert sp lib) := by
  intro fuel
  induction fuel with
  | zero =>
    intro base last lib h
    rw [visitedBases_zero] at h
    simp [firstHit] at h
  | succ fuel ih =>
    intro base last lib h
    rw [visitedBases_succ] at h
    rw [walkLoop_succ]
    cases hf : BASE_SUB_DIRS.find? (fun sub => markerExists fs base sub) with
    | some sub =>
      simp only [firstHit, List.findSome?_cons, hf, Option.map_some'] at h
      simp only [hf]
      rw [Option.some_inj] at h
      rw [h]
    | none =>
      simp only [firstHit, List.findSome?_cons, hf, Option.map_none'] at h
      simp only [hf]
      by_cases hg : posixDirname base = "" ∨ some (posixDirname base) = last
      · rw [if_pos hg] at h
        simp at h
      · rw [if_neg hg] at h
        rw [if_neg hg]
        exact ih _ _ _ h

theorem walkLoop_of_noHit (fs sp : List String) :
    ∀ (fuel : Nat) (base : String) (last : Option String),
      firstHit fs (visitedBases fuel base last) = none →
      walkLoop fs sp fuel base last = none ∨
        walkLoop fs sp fuel base last = some sp := by
  intro fuel
  induction fuel with
  | zero =>
    intro base last _
    left
    rfl
  | succ fuel ih =>
    intro base last h
    rw [visitedBases_succ] at h
    rw [walkLoop_succ]
    cases hf : BASE_SUB_DIRS.find? (fun sub => markerExists fs base sub) with
    | some sub =>
      simp only [firstHit, List.findSome?_cons, hf, Option.map_some'] at h
      exact Option.noConfusion h
    | none =>
      simp only [firstHit, List.findSome?_cons, hf, Option.map_none'] at h
      simp only [hf]
      by_cases hg : posixDirname base = "" ∨ some (posixDirname base) = last
      · right
        rw [if_pos hg]
      · rw [if_neg hg] at h
        rw [if_neg hg]
        exact ih _ _ h

theorem walkLoop_total (fs sp : List String) :
    ∀ (n : Nat) (base : String) (last : Option String), base.length ≤ n →
      walkLoop fs sp (n + 2) base last ≠ none := by
  intro n
  induction n with
  | zero =>
    intro base last hlen
    have hbase : base = "" := by
      cases base with
      | mk data =>
        cases data with
        | nil => rfl
        | cons c cs =>
          exact absurd (show cs.length + 1 ≤ 0 from hlen) (by omega)
    subst hbase
    rw [walkLoop_succ]
    cases hf : BASE_SUB_DIRS.find? (fun sub => markerExists fs "" sub) with
    | some sub => simp [hf]
    | none =>
      simp only [hf]
      have hd : posixDirname "" = "" := by decide
      simp [hd]
  | succ n ih =>
    intro base last hlen
    show walkLoop fs sp ((n + 2) + 1) base last ≠ none
    rw [walkLoop_succ]
    cases hf : BASE_SUB_DIRS.find? (fun sub => markerExists fs base sub) with
    | some sub => simp [hf]
    | none =>
      simp only [hf]
      by_cases hg : posixDirname base = "" ∨ some (posixDirname base) = last
      · simp [if_pos hg]
      · rw [if_neg hg]
        rcases posixDirname_shrink base with heq | hlt
        · rw [heq]
          show walkLoop fs sp ((n + 1) + 1) base (some base) ≠ none
          rw [walkLoop_succ]
          simp [hf, heq]
        · exact ih _ _ (by omega)

theorem walkLoop_idem (fs sp r : List String) :
    ∀ (fuel : Nat) (base : String) (last : Option String),
      walkLoop fs sp fuel base last = some r →
      walkLoop fs r fuel base last = some r := by
  intro fuel
  induction fuel with
  | zero =>
    intro base last h
    rw [walkLoop_zero] at h
    cases h
  | succ fuel ih =>
    intro base last h
    rw [walkLoop_succ] at h
    rw [walkLoop_succ]
    cases hf : BASE_SUB_DIRS.find? (fun sub => markerExists fs base sub) with
    | some sub =>
      simp only [hf] at h
      simp only [hf]
      rw [Option.some_inj] at h
      rw [Option.some_inj, ← h]
      exact guardedInsert_idem sp (posixJoin base sub)
    | none =>
      simp only [hf] at h
      simp only [hf]
      by_cases hg : posixDirname base = "" ∨ some (posixDirname base) = last
      · rw [if_pos hg]
      · rw [if_neg hg] at h
        rw [if_neg hg]
        exact ih _ _ h

theorem walkLoop_shape (fs sp : List String) :
    ∀ (fuel : Nat) (base : String) (last : Option String) (r : List String),
      walkLoop fs sp fuel base last = some r →
      r = sp ∨ ∃ lib, lib ∉ sp ∧ r = lib :: sp := by
  intro fuel
  induction fuel with
  | zero =>
    intro base last r h
    rw [walkLoop_zero] at h
    exact Option.noConfusion h
  | succ fuel ih =>
    intro base last r h
    rw [walkLoop_succ] at h
    cases hf : BASE_SUB_DIRS.find? (fun sub => markerExists fs base sub) with
    | some sub =>
      simp only [hf] at h
      rw [Option.some_inj] at h
      unfold guardedInsert at h
      by_cases hm : posixJoin base sub ∈ sp
      · rw [if_pos hm] at h
        exact Or.inl h.symm
      · rw [if_neg hm] at h
        exact Or.inr ⟨posixJoin base sub, hm, h.symm⟩
    | none =>
      simp only [hf] at h
      by_cases hg : posixDirname base = "" ∨ some (posixDirname base) = last
      · rw [if_pos hg] at h
        exact Or.inl (Option.some_inj.mp h).symm
      · rw [if_neg hg] at h
        exact ih _ _ _ h

/-! The claims. -/

/-- C1: whenever the marker file exists under some candidate subdirectory of
some directory the walk visits, `add_python_misc_to_sys_path` inserts exactly
the candidate directory of the nearest such ancestor, candidates being tried
in the fixed `BASE_SUB_DIRS` priority order at each ancestor before
ascending: `firstHit` scans the visited ancestors from nearest to farthest
and, within one ancestor, the candidates in priority order. -/
theorem c1_nearest_ancestor_priority_insert
    (fs sp : List String) (file lib : String)
    (h : firstHit fs (walkAncestors file) = some lib) :
    add_python_misc_to_sys_path fs sp file = some (guardedInsert sp lib) :=
  walkLoop_of_firstHit fs sp (walkFuel file) (initial_base_dir file) none lib h

theorem c1_witness :
    add_python_misc_to_sys_path ["/u/v/lib/python_misc/__init__.py"] []
      "/u/v/w/z.py" = some ["/u/v/lib"] :=
  c1_nearest_ancestor_priority_insert ["/u/v/lib/python_misc/__init__.py"] []
    "/u/v/w/z.py" "/u/v/lib" (by decide)

/-- C2 as stated is false: for the bootstrap file `/r/a/b/c/d/bin/lib/x.py`
the walk starts at `/r/a/b/c/d/bin`, the parent of the directory containing
the file, not at the parent of the parent of that directory (which would be
`posixDirname` applied three times to the file path, `/r/a/b/c/d`). -/
theorem c2_counterexample :
    initial_base_dir "/r/a/b/c/d/bin/lib/x.py" = "/r/a/b/c/d/bin" ∧
      initial_base_dir "/r/a/b/c/d/bin/lib/x.py" ≠
        posixDirname (posixDirname (posixDirname "/r/a/b/c/d/bin/lib/x.py")) := by
  decide

/-- C2 (amended): the walk begins at the parent of the directory containing
the bootstrap file, i.e. one directory level above it (`dirname` applied
twice to the file path), and the candidates are checked at that starting
directory before any ascent: a candidate match there decides the result. -/
theorem c2_start_parent_of_file_dir
    (fs sp : List String) (file sub : String)
    (h : BASE_SUB_DIRS.find?
        (fun s => markerExists fs (initial_base_dir file) s) = some sub) :
    initial_base_dir file = posixDirname (posixDirname file) ∧
      add_python_misc_to_sys_path fs sp file =
        some (guardedInsert sp (posixJoin (initial_base_dir file) sub)) := by
  refine ⟨rfl, ?_⟩
  show walkLoop fs sp (((initial_base_dir file).length + 1) + 1)
    (initial_base_dir file) none = _
  rw [walkLoop_succ]
  simp only [h]

theorem c2_witness :
    add_python_misc_to_sys_path ["/u/v/lib/python_misc/__init__.py"] ["/q"]
      "/u/v/w/z.py" = some ["/u/v/lib", "/q"] :=
  (c2_start_parent_of_file_dir ["/u/v/lib/python_misc/__init__.py"] ["/q"]
    "/u/v/w/z.py" "lib" (by decide)).2

/-- C3: for every filesystem, search path and bootstrap file the resolver
terminates by reaching one of its return statements — a marker hit, an empty
new `base_dir`, or a new `base_dir` equal to the previous one — before the
fuel bound `walkFuel` runs out, so the result is never `none`. -/
theorem c3_walk_terminates (fs sp : List String) (file : String) :
    (add_python_misc_to_sys_path fs sp file).isSome := by
  cases hc : add_python_misc_to_sys_path fs sp file with
  | none =>
    exact absurd hc (walkLoop_total fs sp (initial_base_dir file).length
      (initial_base_dir file) none (le_refl _))
  | some r => rfl

/-- C4: insertion is guarded and idempotent — running the resolver again on
its own output changes nothing, and a run either leaves the search path
unchanged or prepends a single directory that was not yet a member. -/
theorem c4_guarded_idempotent (fs sp : List String) (file : String)
    (r : List String) (h : add_python_misc_to_sys_path fs sp file = some r) :
    add_python_misc_to_sys_path fs r file = some r ∧
      (r = sp ∨ ∃ lib, lib ∉ sp ∧ r = lib :: sp) :=
  ⟨walkLoop_idem fs sp r _ _ _ h, walkLoop_shape fs sp _ _ _ _ h⟩

theorem c4_witness :
    add_python_misc_to_sys_path
      ["/r/a/b/ext/python_misc/python_misc/__init__.py"]
      ["/r/a/b/ext/python_misc"] "/r/a/b/c/d/bin/lib/x.py" =
      some ["/r/a/b/ext/python_misc"] :=
  (c4_guarded_idempotent ["/r/a/b/ext/python_misc/python_misc/__init__.py"]
    [] "/r/a/b/c/d/bin/lib/x.py" ["/r/a/b/ext/python_misc"] (by decide)).1

/-- C5: when no marker file exists under any candidate subdirectory of any
directory the walk can visit, the resolver returns the search path exactly
unchanged and performs no insertion. -/
theorem c5_no_marker_no_insertion (fs sp : List String) (file : String)
    (h : ∀ b ∈ walkAncestors file, ∀ sub ∈ BASE_SUB_DIRS,
      markerExists fs b sub = false) :
    add_python_misc_to_sys_path fs sp file = some sp := by
  have hnone : firstHit fs (walkAncestors file) = none := by
    rw [firstHit, List.findSome?_eq_none_iff]
    intro b hb
    have hfind : BASE_SUB_DIRS.find? (fun sub => markerExists fs b sub)
        = none := by
      rw [List.find?_eq_none]
      intro sub hsub
      simp [h b hb sub hsub]
    simp [hfind]
  rcases walkLoop_of_noHit fs sp (walkFuel file) (initial_base_dir file) none
    hnone with hn | hs
  · exact absurd hn (walkLoop_total fs sp (initial_base_dir file).length
      (initial_base_dir file) none (le_refl _))
  · exact hs

theorem c5_witness :
    add_python_misc_to_sys_path [] ["/keep"] "/m/n/o/p.py" = some ["/keep"] :=
  c5_no_marker_no_insertion [] ["/keep"] "/m/n/o/p.py" (by decide)

/-- C6: with candidates `['lib', 'ext/python_misc']` and a filesystem in
which only `/r/a/b/ext/python_misc/python_misc/__init__.py` exists, running
the resolver for the bootstrap file `/r/a/b/c/d/bin/lib/x.py` inserts
exactly `/r/a/b/ext/python_misc` into the (initially empty) search path. -/
theorem c6_concrete_layout :
    add_python_misc_to_sys_path
      ["/r/a/b/ext/python_misc/python_misc/__init__.py"] []
      "/r/a/b/c/d/bin/lib/x.py" = some ["/r/a/b/ext/python_misc"] := by
  decide

/-- C7: for every item and batch, `build_restore_batch` and
`build_compare_batch` abort the process (the `error` outcome) with their
descriptive not-yet-implemented messages, performing no builder call on the
batch; neither can return normally. -/
theorem c7_restore_compare_abort {Config : Type} (item : P7ZipItem Config)
    (batch : Batch) :
    item.build_restore_batch batch =
        Except.error "Restore is not yet implemented for p7zip compression." ∧
      item.build_compare_batch batch =
        Except.error "Compare is not yet implemented for p7zip compression." :=
  ⟨rfl, rfl⟩

/-- C8: the factory returns a constructed item exactly when the parsed
extension equals `"7z"`, and returns nothing for any other extension, in
particular `"zip"`. -/
theorem c8_factory_matches_7z {Config : Type}
    (base_init : String → Config → P7ZipItem Config)
    (path extension : String) (config_data : Config) :
    (P7ZipItem.item_for_path_if_matching base_init path extension config_data
        = some (base_init path config_data) ↔ extension = "7z") ∧
      (P7ZipItem.item_for_path_if_matching base_init path extension config_data
        = none ↔ extension ≠ "7z") := by
  unfold P7ZipItem.item_for_path_if_matching
  by_cases h : extension = "7z" <;> simp [h]

/-- C9: `build_create_batch` performs exactly four builder calls on the
batch, in order `add_command('7za', 'a')`, `add_exclude_args('-xr!')`,
`add_args((archive, '.7z'), path)`, `add_source_deletion()`, and returns
normally (no abort, no other mutation). -/
theorem c9_create_batch_calls {Config : Type} (item : P7ZipItem Config)
    (batch : Batch) :
    item.build_create_batch batch =
      Except.ok (List.append batch
        [BatchCall.add_command ["7za", "a"],
         BatchCall.add_exclude_args ["-xr!"],
         BatchCall.add_args [BatchArg.pair item.archive ".7z",
           BatchArg.str item.path],
         BatchCall.add_source_deletion]) := by
  simp [P7ZipItem.build_create_batch, Batch.add_command, Batch.add_exclude_args,
    Batch.add_args, Batch.add_source_deletion, List.append_eq,
    List.append_assoc]

/-- C10: the factory's extension test is case-sensitive exact equality: any
extension other than exactly `"7z"` — such as `"7Z"` or `".7z"` — produces
no item. -/
theorem c10_extension_match_exact {Config : Type}
    (base_init : String → Config → P7ZipItem Config)
    (path extension : String) (config_data : Config)
    (h : extension ≠ "7z") :
    P7ZipItem.item_for_path_if_matching base_init path extension config_data
      = none := by
  simp [P7ZipItem.item_for_path_if_matching, h]

theorem c10_witness :
    P7ZipItem.item_for_path_if_matching
      (fun p c => P7ZipItem.mk p c "") "f.7Z" "7Z" () = none :=
  c10_extension_match_exact (fun p c => P7ZipItem.mk p c "") "f.7Z" "7Z" ()
    (by decide)
